import Mathlib

/-!
Verification of the NYC trip data-processing pipeline
(`backend/app/data_processing.py` and `backend/app/services/utils.py`).

Modelling conventions:
* a pandas timestamp is an integer number of seconds since the epoch;
  `NaT` (missing) is `Option.none`;
* a float column value is a real number; `NaN` is `Option.none`;
* a `DataFrame` row is a `Trip` structure, a frame is a `List Trip`;
* column-wise pandas operations are applied row-wise;
* `pandas.sort_values` is modelled by a stable insertion sort on the
  same key.
-/

open List

/-- km/h threshold constant `SPEED_OUTLIER_THRESHOLD = 120.0`. -/
def SPEED_OUTLIER_THRESHOLD : ℝ := 120.0

/-- One row of the working DataFrame (`TripRecord`): raw fields plus the
derived columns, each derived column `none` until assigned. -/
structure Trip where
  vendor_id : ℕ
  pickup_datetime : Option ℤ
  dropoff_datetime : Option ℤ
  pickup_latitude : Option ℝ
  pickup_longitude : Option ℝ
  dropoff_latitude : Option ℝ
  dropoff_longitude : Option ℝ
  passenger_count : Option ℤ
  fare_amount : Option ℝ
  trip_duration_sec : Option ℤ := none
  trip_distance_km : Option ℝ := none
  trip_speed_kmh : Option ℝ := none
  trip_efficiency : Option ℝ := none
  fare_per_km : Option ℝ := none
  idle_time_sec : Option ℤ := none

/-- `services/utils.py`: `calculate_trip_distance` — haversine great-circle
distance in km; `radians x = x * π / 180`, Earth radius 6371 km. -/
noncomputable def calculate_trip_distance (lat1 lon1 lat2 lon2 : ℝ) : ℝ :=
  let lat1r := lat1 * (Real.pi / 180)
  let lon1r := lon1 * (Real.pi / 180)
  let lat2r := lat2 * (Real.pi / 180)
  let lon2r := lon2 * (Real.pi / 180)
  let dlon := lon2r - lon1r
  let dlat := lat2r - lat1r
  let a := Real.sin (dlat / 2) ^ 2 +
    Real.cos lat1r * Real.cos lat2r * Real.sin (dlon / 2) ^ 2
  let c := 2 * Real.arcsin (Real.sqrt a)
  6371 * c

/-- `clean_passenger_count_series` applied to one value:
`fillna(1).astype(int).clip(lower=1)`. -/
def clean_passenger_count (p : Option ℤ) : ℤ :=
  max (p.getD 1) 1

/-- `calculate_trip_duration_secs` applied to one row:
`(dropoff - pickup).total_seconds()` kept only when `≥ 0`; a missing
timestamp makes the delta missing. -/
def calculate_trip_duration_secs (dropoff pickup : Option ℤ) : Option ℤ :=
  match dropoff, pickup with
  | some d, some p => if 0 ≤ d - p then some (d - p) else none
  | _, _ => none

/-- `calculate_trip_distance_km` applied to one row: the haversine of the
four coordinates, missing when any coordinate is missing (a NaN coordinate
propagates to a NaN distance). -/
noncomputable def calculate_trip_distance_km (t : Trip) : Option ℝ :=
  match t.pickup_latitude, t.pickup_longitude,
        t.dropoff_latitude, t.dropoff_longitude with
  | some a, some b, some c, some d => some (calculate_trip_distance a b c d)
  | _, _, _, _ => none

/-- `derive_trip_speed_kmh` applied to one row:
`distance / (duration / 3600)`, kept only `where duration > 0`; a missing
distance stays missing. -/
noncomputable def derive_trip_speed_kmh (dist : Option ℝ) (dur : Option ℤ) : Option ℝ :=
  match dur with
  | some n => if 0 < n then dist.map (fun d => d / ((n : ℝ) / 3600)) else none
  | none => none

/-- `derive_trip_efficiency` applied to one row:
`speed / max_speed`, `clip(upper=1.0)`. -/
noncomputable def derive_trip_efficiency (speed : Option ℝ)
    (max_speed : ℝ := SPEED_OUTLIER_THRESHOLD) : Option ℝ :=
  speed.map (fun s => min (s / max_speed) 1)

/-- `derive_fare_per_km` applied to one row: `fare / distance` with `±inf`
replaced by missing — so missing whenever fare is missing, distance is
missing, or distance is zero (`0/0` is NaN, `f/0` is `±inf`, both end up
missing). -/
noncomputable def derive_fare_per_km (fare dist : Option ℝ) : Option ℝ :=
  match fare, dist with
  | some f, some d => if d = 0 then none else some (f / d)
  | _, _ => none

/-- The idle scan's `last_dropoff` dictionary: maps a vendor id to
`some d` when the key is present with stored dropoff `d` (itself possibly
missing), `none` when the key is absent. -/
def IdleState : Type := ℕ → Option (Option ℤ)

/-- `last_dropoff[vendor] = row['dropoff_datetime']` — the unconditional
update at the end of each loop iteration. -/
def idleStateStep (state : IdleState) (r : Trip) : IdleState :=
  fun w => if w = r.vendor_id then some r.dropoff_datetime else state w

/-- The idle value computed for one row from the current dictionary:
`None` unless the vendor key is present; then
`(pickup - last_dropoff[vendor]).total_seconds()` kept only when `≥ 0`,
and missing when either timestamp is `NaT`. -/
def mkIdle (state : IdleState) (r : Trip) : Option ℤ :=
  match state r.vendor_id with
  | some prev =>
    match r.pickup_datetime, prev with
    | some p, some d => if 0 ≤ p - d then some (p - d) else none
    | _, _ => none
  | none => none

/-- The body of `calculate_idle_time_sec`'s loop, with the dictionary made
explicit: emit the idle value for the row, then update the dictionary. -/
def idleAux (state : IdleState) : List Trip → List (Option ℤ)
  | [] => []
  | r :: rest => mkIdle state r :: idleAux (idleStateStep state r) rest

/-- `calculate_idle_time_sec`: the per-row idle-time column, produced by a
single pass with an initially empty `last_dropoff` dictionary. -/
def calculate_idle_time_sec (rs : List Trip) : List (Option ℤ) :=
  idleAux (fun _ => none) rs

/-- The `last_dropoff` dictionary after the loop has consumed a whole
list of rows. -/
def idleState (rs : List Trip) : IdleState :=
  rs.foldl idleStateStep (fun _ => none)

/-- `LinkedList`: the hand-rolled tail-append list of outlier trips; its
observable content is the sequence of trips in insertion order. -/
structure LinkedList where
  items : List Trip

/-- `LinkedList.add`: append one trip at the tail. -/
def LinkedList.add (l : LinkedList) (t : Trip) : LinkedList :=
  ⟨l.items ++ [t]⟩

/-- `LinkedList.to_list`: walk the nodes from the head. -/
def LinkedList.to_list (l : LinkedList) : List Trip :=
  l.items

/-- `detect_speed_outliers`: scan the rows in order; a missing
`trip_speed_kmh` is replaced by `0`; rows with `speed > max_speed` are
appended to the linked list. -/
noncomputable def detect_speed_outliers (df : List Trip)
    (max_speed : ℝ := SPEED_OUTLIER_THRESHOLD) : LinkedList :=
  df.foldl
    (fun outliers trip =>
      if trip.trip_speed_kmh.getD 0 > max_speed then outliers.add trip
      else outliers)
    ⟨[]⟩

/-- Order of `Option ℤ` used by `sort_values` on a timestamp column:
ascending with `NaT` placed last. -/
def timeLE (a b : Option ℤ) : Prop :=
  match a, b with
  | some x, some y => x ≤ y
  | some _, none => True
  | none, some _ => False
  | none, none => True

instance : DecidableRel timeLE := fun a b => by
  unfold timeLE
  cases a <;> cases b <;> infer_instance

/-- The key order of `df.sort_values(['vendor_id', 'pickup_datetime'])`:
lexicographic on vendor id then pickup time. -/
def tripKeyLE (a b : Trip) : Prop :=
  a.vendor_id < b.vendor_id ∨
    (a.vendor_id = b.vendor_id ∧ timeLE a.pickup_datetime b.pickup_datetime)

instance : DecidableRel tripKeyLE := fun a b => by
  unfold tripKeyLE
  infer_instance

instance : IsTotal Trip tripKeyLE where
  total a b := by
    unfold tripKeyLE
    rcases Nat.lt_trichotomy a.vendor_id b.vendor_id with h | h | h
    · exact Or.inl (Or.inl h)
    · rcases ha : a.pickup_datetime with _ | x <;>
        rcases hb : b.pickup_datetime with _ | y
      · exact Or.inl (Or.inr ⟨h, by simp [timeLE]⟩)
      · exact Or.inr (Or.inr ⟨h.symm, by simp [timeLE]⟩)
      · exact Or.inl (Or.inr ⟨h, by simp [timeLE]⟩)
      · rcases le_total x y with hxy | hxy
        · exact Or.inl (Or.inr ⟨h, by simp [timeLE, hxy]⟩)
        · exact Or.inr (Or.inr ⟨h.symm, by simp [timeLE, hxy]⟩)
    · exact Or.inr (Or.inl h)

instance : IsTrans Trip tripKeyLE where
  trans a b c hab hbc := by
    unfold tripKeyLE at *
    rcases hab with h1 | ⟨h1, h1t⟩ <;> rcases hbc with h2 | ⟨h2, h2t⟩
    · exact Or.inl (h1.trans h2)
    · exact Or.inl (h2 ▸ h1)
    · exact Or.inl (h1 ▸ h2)
    · refine Or.inr ⟨h1.trans h2, ?_⟩
      rcases ha : a.pickup_datetime with _ | x <;>
        rcases hb : b.pickup_datetime with _ | y <;>
          rcases hc : c.pickup_datetime with _ | z <;>
            simp_all [timeLE]
      · exact h1t.trans h2t

/-- The row-wise part of the pipeline: clean the passenger count and
derive duration, distance, speed, efficiency and fare-per-km, in the
order the pipeline assigns those columns. -/
noncomputable def deriveRecord (t : Trip) : Trip :=
  let t1 := { t with passenger_count := some (clean_passenger_count t.passenger_count) }
  let t2 := { t1 with trip_duration_sec :=
    calculate_trip_duration_secs t1.dropoff_datetime t1.pickup_datetime }
  let t3 := { t2 with trip_distance_km := calculate_trip_distance_km t2 }
  let t4 := { t3 with trip_speed_kmh :=
    derive_trip_speed_kmh t3.trip_distance_km t3.trip_duration_sec }
  let t5 := { t4 with trip_efficiency := derive_trip_efficiency t4.trip_speed_kmh }
  { t5 with fare_per_km := derive_fare_per_km t5.fare_amount t5.trip_distance_km }

/-- `df['idle_time_sec'] = calculate_idle_time_sec(df)`: zip the computed
idle column back onto the rows. -/
def setIdle (rs : List Trip) : List Trip :=
  List.zipWith (fun t i => { t with idle_time_sec := i }) rs
    (calculate_idle_time_sec rs)

/-- The `dropna` predicate: the four critical columns are all present. -/
def critical (t : Trip) : Bool :=
  t.pickup_datetime.isSome && t.dropoff_datetime.isSome &&
    t.trip_duration_sec.isSome && t.trip_distance_km.isSome

/-- `process_pipeline` restricted to its in-memory data path: clean and
derive row-wise, sort by `(vendor_id, pickup_datetime)`, compute and
attach the idle column, then drop rows missing a critical column. The
result is the cleaned frame `df_clean`. -/
noncomputable def process_pipeline (rows : List Trip) : List Trip :=
  (setIdle (List.insertionSort tripKeyLE (rows.map deriveRecord))).filter critical

/-! ## C5: trip duration -/

/-- C5: `duration_seconds` is present iff both timestamps are present and
the dropoff is not before the pickup, in which case it equals
`dropoff − pickup` in seconds and is non-negative; a negative delta yields
missing, never a clamped zero. -/
theorem calculate_trip_duration_secs_spec (dropoff pickup : Option ℤ) (v : ℤ) :
    calculate_trip_duration_secs dropoff pickup = some v ↔
      ∃ d p, dropoff = some d ∧ pickup = some p ∧ p ≤ d ∧ v = d - p ∧ 0 ≤ v := by
  cases dropoff with
  | none => simp [calculate_trip_duration_secs]
  | some d =>
    cases pickup with
    | none => simp [calculate_trip_duration_secs]
    | some p =>
      simp only [calculate_trip_duration_secs, Option.some.injEq]
      split_ifs with h
      · constructor
        · intro h2
          rw [Option.some.injEq] at h2
          exact ⟨d, p, rfl, rfl, by omega, by omega, by omega⟩
        · rintro ⟨d', p', hd, hp, hle, hv, hnn⟩
          cases hd; cases hp
          rw [Option.some.injEq]
          omega
      · constructor
        · rintro ⟨⟩
        · rintro ⟨d', p', hd, hp, hle, hv, hnn⟩
          cases hd; cases hp; omega

/-- Witness for C5 at dropoff 10, pickup 3: duration 7. -/
theorem calculate_trip_duration_secs_spec_witness :
    calculate_trip_duration_secs (some 10) (some 3) = some 7 :=
  (calculate_trip_duration_secs_spec (some 10) (some 3) 7).mpr
    ⟨10, 3, rfl, rfl, by norm_num, by norm_num, by norm_num⟩

/-! ## C7: fare per distance -/

/-- C7: `fare_per_km` is missing — never an infinity — exactly when the
fare is missing, the distance is missing, or the distance is zero;
otherwise it equals `fare / distance`. -/
theorem derive_fare_per_km_spec (fare dist : Option ℝ) :
    (derive_fare_per_km fare dist = none ↔
      fare = none ∨ dist = none ∨ dist = some 0) ∧
    (∀ f d, fare = some f → dist = some d → d ≠ 0 →
      derive_fare_per_km fare dist = some (f / d)) := by
  constructor
  · cases fare with
    | none => simp [derive_fare_per_km]
    | some f =>
      cases dist with
      | none => simp [derive_fare_per_km]
      | some d =>
        simp only [derive_fare_per_km]
        split_ifs with h
        · simp [h]
        · simp [h]
  · rintro f d rfl rfl hd
    simp [derive_fare_per_km, hd]

/-- Witness for C7: fare 15 over distance 0 is missing; fare 15 over
distance 2 is 15 / 2. -/
theorem derive_fare_per_km_spec_witness :
    derive_fare_per_km (some 15) (some 0) = none ∧
      derive_fare_per_km (some 15) (some 2) = some (15 / 2) :=
  ⟨(derive_fare_per_km_spec (some 15) (some 0)).1.mpr (Or.inr (Or.inr rfl)),
   (derive_fare_per_km_spec (some 15) (some 2)).2 15 2 rfl rfl (by norm_num)⟩

/-! ## C8: trip speed -/

/-- C8: `speed_kmh` is present only when the duration is present and
strictly positive, and then equals `distance / (duration / 3600)`. -/
theorem derive_trip_speed_kmh_spec (dist : Option ℝ) (dur : Option ℤ) (s : ℝ) :
    derive_trip_speed_kmh dist dur = some s →
      ∃ n d, dur = some n ∧ 0 < n ∧ dist = some d ∧ s = d / ((n : ℝ) / 3600) := by
  cases dur with
  | none => simp [derive_trip_speed_kmh]
  | some n =>
    simp only [derive_trip_speed_kmh]
    split_ifs with h
    · cases dist with
      | none => simp
      | some d =>
        intro hmap
        exact ⟨n, d, rfl, h, rfl, (Option.some.inj hmap).symm⟩
    · rintro ⟨⟩

/-- Witness for C8, scenario 1: duration 600 s and distance 10 km give
speed 60 km/h. -/
theorem derive_trip_speed_kmh_spec_witness :
    derive_trip_speed_kmh (some 10) (some 600) = some 60 ∧
      ∃ n d, (some (600 : ℤ)) = some n ∧ 0 < n ∧ (some (10 : ℝ)) = some d ∧
        (60 : ℝ) = d / ((n : ℝ) / 3600) := by
  have h : derive_trip_speed_kmh (some 10) (some 600) = some 60 := by
    rw [show derive_trip_speed_kmh (some 10) (some 600) =
      some ((10 : ℝ) / (((600 : ℤ) : ℝ) / 3600)) from by
        simp [derive_trip_speed_kmh]]
    norm_num
  exact ⟨h, derive_trip_speed_kmh_spec (some 10) (some 600) 60 h⟩

/-! ## Distance helpers and C10 -/

lemma sin_sq_swap (x y : ℝ) :
    Real.sin ((x - y) / 2) ^ 2 = Real.sin ((y - x) / 2) ^ 2 := by
  rw [show (x - y) / 2 = -((y - x) / 2) by ring, Real.sin_neg]
  ring

lemma calculate_trip_distance_nonneg (lat1 lon1 lat2 lon2 : ℝ) :
    0 ≤ calculate_trip_distance lat1 lon1 lat2 lon2 := by
  have h := Real.arcsin_nonneg.mpr (Real.sqrt_nonneg
    (Real.sin ((lat2 * (Real.pi / 180) - lat1 * (Real.pi / 180)) / 2) ^ 2 +
      Real.cos (lat1 * (Real.pi / 180)) * Real.cos (lat2 * (Real.pi / 180)) *
        Real.sin ((lon2 * (Real.pi / 180) - lon1 * (Real.pi / 180)) / 2) ^ 2))
  simp only [calculate_trip_distance]
  linarith

lemma calculate_trip_distance_symm (lat1 lon1 lat2 lon2 : ℝ) :
    calculate_trip_distance lat2 lon2 lat1 lon1 =
      calculate_trip_distance lat1 lon1 lat2 lon2 := by
  simp only [calculate_trip_distance]
  rw [sin_sq_swap (lat1 * (Real.pi / 180)) (lat2 * (Real.pi / 180)),
    sin_sq_swap (lon1 * (Real.pi / 180)) (lon2 * (Real.pi / 180)),
    mul_comm (Real.cos (lat2 * (Real.pi / 180))) (Real.cos (lat1 * (Real.pi / 180)))]

lemma calculate_trip_distance_self (lat lon : ℝ) :
    calculate_trip_distance lat lon lat lon = 0 := by
  simp [calculate_trip_distance]

/-- C10: for latitudes within [-90, 90] degrees, the haversine distance is
non-negative, symmetric in the two points, and zero on identical points. -/
theorem calculate_trip_distance_spec (lat1 lon1 lat2 lon2 : ℝ)
    (_h1 : -90 ≤ lat1 ∧ lat1 ≤ 90) (_h2 : -90 ≤ lat2 ∧ lat2 ≤ 90) :
    0 ≤ calculate_trip_distance lat1 lon1 lat2 lon2 ∧
      calculate_trip_distance lat2 lon2 lat1 lon1 =
        calculate_trip_distance lat1 lon1 lat2 lon2 ∧
      (lat1 = lat2 ∧ lon1 = lon2 →
        calculate_trip_distance lat1 lon1 lat2 lon2 = 0) :=
  ⟨calculate_trip_distance_nonneg _ _ _ _,
   calculate_trip_distance_symm _ _ _ _,
   by rintro ⟨rfl, rfl⟩; exact calculate_trip_distance_self _ _⟩

/-- Witness for C10 at the origin. -/
theorem calculate_trip_distance_spec_witness :
    0 ≤ calculate_trip_distance 0 0 0 0 ∧
      calculate_trip_distance 0 0 0 0 = calculate_trip_distance 0 0 0 0 ∧
      ((0 : ℝ) = 0 ∧ (0 : ℝ) = 0 → calculate_trip_distance 0 0 0 0 = 0) :=
  calculate_trip_distance_spec 0 0 0 0 (by norm_num) (by norm_num)

/-! ## Efficiency helpers and C6 -/

lemma distance_km_nonneg_aux (w x y z : Option ℝ) (d : ℝ)
    (h : (match w, x, y, z with
      | some a, some b, some c, some e => some (calculate_trip_distance a b c e)
      | _, _, _, _ => none) = some d) : 0 ≤ d := by
  rcases w with _ | a <;> rcases x with _ | b <;> rcases y with _ | c <;>
    rcases z with _ | e <;>
    first
      | exact Option.noConfusion h
      | exact (Option.some.inj h) ▸ calculate_trip_distance_nonneg a b c e

lemma calculate_trip_distance_km_nonneg (t : Trip) (d : ℝ)
    (h : calculate_trip_distance_km t = some d) : 0 ≤ d :=
  distance_km_nonneg_aux t.pickup_latitude t.pickup_longitude
    t.dropoff_latitude t.dropoff_longitude d h

lemma deriveRecord_speed_eq (t : Trip) :
    (deriveRecord t).trip_speed_kmh =
      derive_trip_speed_kmh (calculate_trip_distance_km t)
        (calculate_trip_duration_secs t.dropoff_datetime t.pickup_datetime) := rfl

lemma deriveRecord_efficiency_eq (t : Trip) :
    (deriveRecord t).trip_efficiency =
      derive_trip_efficiency ((deriveRecord t).trip_speed_kmh) := rfl

lemma deriveRecord_speed_nonneg (t : Trip) (s : ℝ)
    (h : (deriveRecord t).trip_speed_kmh = some s) : 0 ≤ s := by
  rw [deriveRecord_speed_eq] at h
  rcases hdur : calculate_trip_duration_secs t.dropoff_datetime t.pickup_datetime
    with _ | n
  · rw [hdur] at h
    exact Option.noConfusion h
  · rw [hdur] at h
    simp only [derive_trip_speed_kmh] at h
    split_ifs at h with hn
    · rcases hdist : calculate_trip_distance_km t with _ | d
      · rw [hdist] at h
        exact Option.noConfusion h
      · rw [hdist] at h
        have hd : 0 ≤ d := calculate_trip_distance_km_nonneg t d hdist
        have hs : d / ((n : ℝ) / 3600) = s := Option.some.inj h
        have hn' : (0 : ℝ) ≤ (n : ℝ) / 3600 := by positivity
        exact hs ▸ div_nonneg hd hn'

/-- C6: on a derived record, `trip_efficiency` is present only when
`trip_speed_kmh` is present, equals `min (speed / MAX_SPEED) 1`, and then
lies in the closed interval [0, 1]. -/
theorem derive_trip_efficiency_spec (t : Trip) (e : ℝ)
    (he : (deriveRecord t).trip_efficiency = some e) :
    ∃ s, (deriveRecord t).trip_speed_kmh = some s ∧
      e = min (s / SPEED_OUTLIER_THRESHOLD) 1 ∧ 0 ≤ e ∧ e ≤ 1 := by
  rw [deriveRecord_efficiency_eq] at he
  rcases hs : (deriveRecord t).trip_speed_kmh with _ | s
  · rw [hs] at he
    exact Option.noConfusion he
  · rw [hs] at he
    have he2 : e = min (s / SPEED_OUTLIER_THRESHOLD) 1 := (Option.some.inj he).symm
    have hs0 : 0 ≤ s := deriveRecord_speed_nonneg t s hs
    refine ⟨s, rfl, he2, ?_, ?_⟩
    · rw [he2]
      refine le_min (div_nonneg hs0 ?_) (by norm_num)
      norm_num [SPEED_OUTLIER_THRESHOLD]
    · rw [he2]
      exact min_le_right _ _

/-- A concrete fully-populated record used by the C6 witness. -/
def tripC6 : Trip :=
  { vendor_id := 1, pickup_datetime := some 0, dropoff_datetime := some 600,
    pickup_latitude := some 0, pickup_longitude := some 0,
    dropoff_latitude := some 0, dropoff_longitude := some 0,
    passenger_count := some 1, fare_amount := none }

/-- Witness for C6: the derived efficiency of `tripC6` is present and lies
in [0, 1]. -/
theorem derive_trip_efficiency_spec_witness :
    ∃ e, (deriveRecord tripC6).trip_efficiency = some e ∧ 0 ≤ e ∧ e ≤ 1 := by
  have he : (deriveRecord tripC6).trip_efficiency =
      some (min ((calculate_trip_distance 0 0 0 0 / (((600 - 0 : ℤ) : ℝ) / 3600)) /
        SPEED_OUTLIER_THRESHOLD) 1) := rfl
  obtain ⟨s, _, _, h0, h1⟩ := derive_trip_efficiency_spec tripC6 _ he
  exact ⟨_, he, h0, h1⟩


/-! ## Idle-time helpers -/

lemma foldl_idleStateStep_none (rs : List Trip) (s : IdleState) (v : ℕ)
    (h : (rs.filter (fun r => r.vendor_id == v)).getLast? = none) :
    rs.foldl idleStateStep s v = s v := by
  induction rs using List.reverseRecOn generalizing s with
  | nil => rfl
  | append_singleton l r ih =>
    rw [List.filter_append] at h
    by_cases hv : r.vendor_id = v
    · exfalso
      have hfr : List.filter (fun r => r.vendor_id == v) [r] = [r] := by simp [hv]
      rw [hfr, List.getLast?_concat] at h
      exact Option.noConfusion h
    · have hfr : List.filter (fun r => r.vendor_id == v) [r] = [] := by simp [hv]
      rw [hfr, List.append_nil] at h
      rw [List.foldl_append]
      show idleStateStep (l.foldl idleStateStep s) r v = s v
      unfold idleStateStep
      rw [if_neg (fun hh => hv hh.symm)]
      exact ih s h

lemma foldl_idleStateStep_some (rs : List Trip) (s : IdleState) (v : ℕ) (q : Trip)
    (h : (rs.filter (fun r => r.vendor_id == v)).getLast? = some q) :
    rs.foldl idleStateStep s v = some q.dropoff_datetime := by
  induction rs using List.reverseRecOn generalizing s with
  | nil => exact Option.noConfusion h
  | append_singleton l r ih =>
    rw [List.filter_append] at h
    rw [List.foldl_append]
    by_cases hv : r.vendor_id = v
    · have hfr : List.filter (fun r => r.vendor_id == v) [r] = [r] := by simp [hv]
      rw [hfr, List.getLast?_concat, Option.some.injEq] at h
      subst h
      show idleStateStep (l.foldl idleStateStep s) r v = some r.dropoff_datetime
      unfold idleStateStep
      rw [if_pos hv.symm]
    · have hfr : List.filter (fun r => r.vendor_id == v) [r] = [] := by simp [hv]
      rw [hfr, List.append_nil] at h
      show idleStateStep (l.foldl idleStateStep s) r v = some q.dropoff_datetime
      unfold idleStateStep
      rw [if_neg (fun hh => hv hh.symm)]
      exact ih s h

lemma idleAux_getElem (rs : List Trip) (s : IdleState) (i : ℕ) (r : Trip)
    (hr : rs[i]? = some r) :
    (idleAux s rs)[i]? = some (mkIdle ((rs.take i).foldl idleStateStep s) r) := by
  induction rs generalizing s i with
  | nil => simp at hr
  | cons r0 rest ih =>
    cases i with
    | zero =>
      simp only [List.getElem?_cons_zero, Option.some.injEq] at hr
      subst hr
      simp [idleAux]
    | succ j =>
      simp only [List.getElem?_cons_succ] at hr
      simpa [idleAux] using ih (idleStateStep s r0) j hr

lemma mkIdle_eq_some_iff (state : IdleState) (r : Trip) (v : ℤ) :
    mkIdle state r = some v ↔
      ∃ prev p d, state r.vendor_id = some prev ∧ r.pickup_datetime = some p ∧
        prev = some d ∧ 0 ≤ p - d ∧ v = p - d := by
  constructor
  · intro h
    unfold mkIdle at h
    rcases hst : state r.vendor_id with _ | prev <;> rw [hst] at h
    · exact Option.noConfusion h
    · rcases hp : r.pickup_datetime with _ | p <;> rw [hp] at h
      · exact Option.noConfusion h
      · rcases prev with _ | d
        · exact Option.noConfusion h
        · by_cases hge : 0 ≤ p - d
          · have h2 : (if 0 ≤ p - d then some (p - d) else none) = some v := h
            rw [if_pos hge, Option.some.injEq] at h2
            exact ⟨some d, p, d, rfl, rfl, rfl, hge, h2.symm⟩
          · have h2 : (if 0 ≤ p - d then some (p - d) else none) = some v := h
            rw [if_neg hge] at h2
            exact Option.noConfusion h2
  · rintro ⟨prev, p, d, hst, hp, rfl, hge, rfl⟩
    unfold mkIdle
    rw [hst, hp]
    show (if 0 ≤ p - d then some (p - d) else none) = some (p - d)
    rw [if_pos hge]

/-! ## C2: idle-time values -/

/-- C2: over a sequence sorted by (vendor, pickup), the idle column holds a
value `v` at position `i` exactly when an earlier record of the same vendor
exists, the latest such record has a present dropoff, the current record has
a present pickup, and their gap `pickup − dropoff` is non-negative; `v` is
then that gap in seconds. -/
theorem calculate_idle_time_sec_spec (rs : List Trip)
    (_hsorted : List.Sorted tripKeyLE rs) (i : ℕ) (r : Trip)
    (hr : rs[i]? = some r) (v : ℤ) :
    (calculate_idle_time_sec rs)[i]? = some (some v) ↔
      ∃ prev, ((rs.take i).filter
          (fun q => q.vendor_id == r.vendor_id)).getLast? = some prev ∧
        ∃ p d, r.pickup_datetime = some p ∧ prev.dropoff_datetime = some d ∧
          0 ≤ p - d ∧ v = p - d := by
  unfold calculate_idle_time_sec
  rw [idleAux_getElem rs (fun _ => none) i r hr, Option.some.injEq,
    mkIdle_eq_some_iff]
  constructor
  · rintro ⟨prev, p, d, hst, hp, hprev, hge, hv⟩
    rcases hlast : ((rs.take i).filter
        (fun q => q.vendor_id == r.vendor_id)).getLast? with _ | q
    · rw [foldl_idleStateStep_none _ _ _ hlast] at hst
      exact Option.noConfusion hst
    · rw [foldl_idleStateStep_some _ _ _ _ hlast, Option.some.injEq] at hst
      refine ⟨q, hlast, p, d, hp, ?_, hge, hv⟩
      rw [hst]
      exact hprev
  · rintro ⟨q, hlast, p, d, hp, hdd, hge, hv⟩
    refine ⟨some d, p, d, ?_, hp, rfl, hge, hv⟩
    rw [foldl_idleStateStep_some _ _ _ _ hlast, hdd]

/-- First record of the C2 witness scenario: vendor 1, pickup at 0,
dropoff at T0 = 1000. -/
def tripA2 : Trip :=
  { vendor_id := 1, pickup_datetime := some 0, dropoff_datetime := some 1000,
    pickup_latitude := none, pickup_longitude := none, dropoff_latitude := none,
    dropoff_longitude := none, passenger_count := none, fare_amount := none }

/-- Second record of the C2 witness scenario: same vendor, pickup at
T0 + 300 = 1300. -/
def tripB2 : Trip :=
  { tripA2 with pickup_datetime := some 1300, dropoff_datetime := some 2000 }

/-- Witness for C2, scenario 3: with a first dropoff at T0 = 1000 and a
second pickup at T0 + 300, the second record's idle time is 300 s. -/
theorem calculate_idle_time_sec_spec_witness :
    (calculate_idle_time_sec [tripA2, tripB2])[1]? = some (some 300) := by
  have hsorted : List.Sorted tripKeyLE [tripA2, tripB2] := by
    refine List.sorted_cons.mpr ⟨?_, List.sorted_singleton _⟩
    intro b hb
    rw [List.mem_singleton] at hb
    subst hb
    refine Or.inr ⟨rfl, ?_⟩
    show timeLE (some 0) (some 1300)
    norm_num [timeLE]
  refine (calculate_idle_time_sec_spec [tripA2, tripB2] hsorted 1 tripB2 rfl 300).mpr ?_
  exact ⟨tripA2, rfl, 1300, 1000, rfl, rfl, by norm_num, by norm_num⟩

/-! ## C4: the stored last-dropoff invariant -/

/-- C4: after processing any prefix of the input, the `last_dropoff`
dictionary holds, for every vendor key, exactly the dropoff time of the
most recently processed record of that vendor — present as a key even when
that dropoff is itself missing, and absent only when no record of the
vendor has been processed. -/
theorem idleState_spec (rs : List Trip) (n : ℕ) (v : ℕ) :
    idleState (rs.take n) v =
      (((rs.take n).filter (fun r => r.vendor_id == v)).getLast?).map
        (fun r => r.dropoff_datetime) := by
  unfold idleState
  rcases hlast : ((rs.take n).filter (fun r => r.vendor_id == v)).getLast? with _ | q
  · rw [foldl_idleStateStep_none _ _ _ hlast, hlast]
    rfl
  · rw [foldl_idleStateStep_some _ _ _ _ hlast, hlast]
    rfl

/-! ## C9: per-vendor independence of idle times -/

lemma idleAux_state_congr (v : ℕ) (s1 s2 : IdleState) (h : s1 v = s2 v)
    (rs : List Trip) (hrs : ∀ r ∈ rs, r.vendor_id = v) :
    idleAux s1 rs = idleAux s2 rs := by
  induction rs generalizing s1 s2 with
  | nil => rfl
  | cons r rest ih =>
    have hv : r.vendor_id = v := hrs r (List.mem_cons_self r rest)
    unfold idleAux
    congr 1
    · unfold mkIdle
      rw [hv, h]
    · refine ih (idleStateStep s1 r) (idleStateStep s2 r) ?_ ?_
      · unfold idleStateStep
        rw [if_pos hv.symm, if_pos hv.symm]
      · intro q hq
        exact hrs q (List.mem_cons_of_mem _ hq)

lemma idleAux_filter (v : ℕ) (s : IdleState) (rs : List Trip) :
    ((rs.zip (idleAux s rs)).filter (fun p => p.1.vendor_id == v)).map Prod.snd =
      idleAux s (rs.filter (fun r => r.vendor_id == v)) := by
  induction rs generalizing s with
  | nil => rfl
  | cons r rest ih =>
    rw [show (r :: rest).zip (idleAux s (r :: rest)) =
      (r, mkIdle s r) :: rest.zip (idleAux (idleStateStep s r) rest) from rfl]
    by_cases hv : r.vendor_id = v
    · have hb : (r.vendor_id == v) = true := by simp [hv]
      simp only [List.filter_cons, hb, if_true, List.map_cons]
      rw [show idleAux s (r :: rest.filter (fun r => r.vendor_id == v)) =
        mkIdle s r :: idleAux (idleStateStep s r)
          (rest.filter (fun r => r.vendor_id == v)) from rfl]
      rw [ih]
    · have hb : (r.vendor_id == v) = false := by simp [hv]
      simp only [List.filter_cons, hb, Bool.false_eq_true, if_false]
      rw [ih]
      refine idleAux_state_congr v _ _ ?_ _ ?_
      · unfold idleStateStep
        rw [if_neg (fun hh => hv hh.symm)]
      · intro q hq
        rw [List.mem_filter] at hq
        simpa using hq.2

/-- C9: the idle values assigned to one vendor's records depend only on
that vendor's ordered subsequence: two inputs agreeing on vendor `v`'s
records produce identical idle columns for vendor `v`. -/
theorem calculate_idle_time_sec_group_independent (v : ℕ) (rs1 rs2 : List Trip)
    (h : rs1.filter (fun r => r.vendor_id == v) =
      rs2.filter (fun r => r.vendor_id == v)) :
    ((rs1.zip (calculate_idle_time_sec rs1)).filter
        (fun p => p.1.vendor_id == v)).map Prod.snd =
      ((rs2.zip (calculate_idle_time_sec rs2)).filter
        (fun p => p.1.vendor_id == v)).map Prod.snd := by
  unfold calculate_idle_time_sec
  rw [idleAux_filter, idleAux_filter, h]

/-- A vendor-2 record interleaved between the vendor-1 records in the C9
witness. -/
def tripC9 : Trip := { tripA2 with vendor_id := 2 }

/-- Witness for C9: inserting a vendor-2 record between two vendor-1
records leaves vendor 1's idle values unchanged. -/
theorem calculate_idle_time_sec_group_independent_witness :
    (([tripA2, tripB2].zip (calculate_idle_time_sec [tripA2, tripB2])).filter
        (fun p => p.1.vendor_id == 1)).map Prod.snd =
      (([tripA2, tripC9, tripB2].zip
          (calculate_idle_time_sec [tripA2, tripC9, tripB2])).filter
        (fun p => p.1.vendor_id == 1)).map Prod.snd :=
  calculate_idle_time_sec_group_independent 1 [tripA2, tripB2]
    [tripA2, tripC9, tripB2] rfl

/-! ## C1: speed-outlier detection -/

lemma detect_speed_outliers_foldl (max_speed : ℝ) (rs : List Trip)
    (acc : LinkedList) :
    (rs.foldl (fun outliers trip =>
        if trip.trip_speed_kmh.getD 0 > max_speed then outliers.add trip
        else outliers) acc).items =
      acc.items ++ rs.filter (fun t => decide (t.trip_speed_kmh.getD 0 > max_speed)) := by
  induction rs generalizing acc with
  | nil => simp
  | cons t rest ih =>
    rw [List.foldl_cons, List.filter_cons]
    by_cases hc : t.trip_speed_kmh.getD 0 > max_speed
    · rw [if_pos hc, ih]
      simp [hc, LinkedList.add]
    · rw [if_neg hc, ih]
      simp [hc]

/-- C1 (amended): for a non-negative threshold, the outlier list is exactly
the subsequence, in encounter order, of records whose `trip_speed_kmh` is
present and strictly greater than the threshold; a missing speed counts as
0 and is never included. -/
theorem detect_speed_outliers_spec (rs : List Trip) (max_speed : ℝ)
    (h : 0 ≤ max_speed) :
    (detect_speed_outliers rs max_speed).to_list =
      rs.filter (fun t =>
        match t.trip_speed_kmh with
        | some s => decide (s > max_speed)
        | none => false) := by
  unfold detect_speed_outliers LinkedList.to_list
  rw [detect_speed_outliers_foldl]
  rw [show (⟨[]⟩ : LinkedList).items = [] from rfl, List.nil_append]
  refine List.filter_congr ?_
  intro t _
  rcases t.trip_speed_kmh with _ | s
  · simp only [Option.getD]
    rw [decide_eq_false]
    exact fun hh => absurd (lt_of_le_of_lt h hh) (lt_irrefl _)
  · rfl

/-- A record with missing speed, used for C1. -/
def tripC1 : Trip := { tripA2 with trip_speed_kmh := none }

/-- A record with speed 150 km/h, used for C1. -/
def tripFast : Trip := { tripA2 with trip_speed_kmh := some 150 }

/-- Counterexample to C1 as stated: with the (negative) threshold −1, a
record whose speed is missing is treated as speed 0, and 0 > −1, so it IS
included in the outlier list — the claim's "never included" fails for
negative thresholds. -/
theorem detect_speed_outliers_cex :
    tripC1.trip_speed_kmh = none ∧
      (detect_speed_outliers [tripC1] (-1)).to_list = [tripC1] := by
  refine ⟨rfl, ?_⟩
  have hcond : tripC1.trip_speed_kmh.getD 0 > (-1 : ℝ) := by
    show (0 : ℝ) > -1
    norm_num
  show (if tripC1.trip_speed_kmh.getD 0 > (-1 : ℝ) then LinkedList.add ⟨[]⟩ tripC1
    else ⟨[]⟩).to_list = [tripC1]
  rw [if_pos hcond]
  rfl

/-- Witness for the amended C1, scenario 5: at threshold 120, a record with
speed 150 is collected and a record with missing speed is not. -/
theorem detect_speed_outliers_spec_witness :
    (detect_speed_outliers [tripC1, tripFast] 120).to_list = [tripFast] := by
  rw [detect_speed_outliers_spec [tripC1, tripFast] 120 (by norm_num)]
  rw [List.filter_cons, List.filter_cons, List.filter_nil]
  rw [show (match tripC1.trip_speed_kmh with
    | some s => decide (s > (120 : ℝ))
    | none => false) = false from rfl]
  have h150 : (match tripFast.trip_speed_kmh with
      | some s => decide (s > (120 : ℝ))
      | none => false) = true := by
    show decide ((150 : ℝ) > 120) = true
    rw [decide_eq_true_eq]
    norm_num
  rw [h150]
  simp

/-! ## Pipeline helpers for C3 -/

lemma clean_passenger_count_idem (p : Option ℤ) :
    clean_passenger_count (some (clean_passenger_count p)) =
      clean_passenger_count p := by
  unfold clean_passenger_count
  rw [Option.getD_some, max_assoc, max_self]

lemma deriveRecord_idem (t : Trip) :
    deriveRecord (deriveRecord t) = deriveRecord t := by
  unfold deriveRecord
  simp only [Trip.mk.injEq, clean_passenger_count_idem]
  repeat' apply And.intro
  all_goals first | rfl | trivial

lemma deriveRecord_setIdle_field (t : Trip) (v : Option ℤ) :
    deriveRecord { t with idle_time_sec := v } =
      { deriveRecord t with idle_time_sec := v } := rfl

lemma idleAux_length (s : IdleState) (rs : List Trip) :
    (idleAux s rs).length = rs.length := by
  induction rs generalizing s with
  | nil => rfl
  | cons r rest ih => simp [idleAux, ih]

lemma mem_zipWith_setIdle (rs : List Trip) (ys : List (Option ℤ)) (x : Trip)
    (hx : x ∈ List.zipWith (fun t i => { t with idle_time_sec := i }) rs ys) :
    ∃ t ∈ rs, ∃ v, x = { t with idle_time_sec := v } := by
  induction rs generalizing ys with
  | nil => simp at hx
  | cons r rest ih =>
    cases ys with
    | nil => simp at hx
    | cons y ys2 =>
      rw [List.zipWith_cons_cons] at hx
      rcases List.mem_cons.mp hx with h | h
      · exact ⟨r, List.mem_cons_self _ _, y, h⟩
      · obtain ⟨t, ht, v, hv⟩ := ih ys2 h
        exact ⟨t, List.mem_cons_of_mem _ ht, v, hv⟩

lemma mem_setIdle (rs : List Trip) (x : Trip) (hx : x ∈ setIdle rs) :
    ∃ t ∈ rs, ∃ v, x = { t with idle_time_sec := v } :=
  mem_zipWith_setIdle rs _ x hx

lemma pairwise_zipWith_setIdle (rs : List Trip) (ys : List (Option ℤ))
    (h : List.Pairwise tripKeyLE rs) :
    List.Pairwise tripKeyLE
      (List.zipWith (fun t i => { t with idle_time_sec := i }) rs ys) := by
  induction rs generalizing ys with
  | nil => simp
  | cons r rest ih =>
    cases ys with
    | nil => simp
    | cons y ys2 =>
      rw [List.zipWith_cons_cons]
      rcases List.pairwise_cons.mp h with ⟨hr, hrest⟩
      refine List.pairwise_cons.mpr ⟨?_, ih ys2 hrest⟩
      intro x hx
      obtain ⟨t, ht, v, rfl⟩ := mem_zipWith_setIdle rest ys2 x hx
      exact hr t ht

lemma pairwise_setIdle (rs : List Trip) (h : List.Pairwise tripKeyLE rs) :
    List.Pairwise tripKeyLE (setIdle rs) :=
  pairwise_zipWith_setIdle rs _ h

lemma out1_fixed (rows : List Trip) :
    ∀ x ∈ process_pipeline rows, deriveRecord x = x := by
  intro x hx
  unfold process_pipeline at hx
  have hx1 : x ∈ setIdle (List.insertionSort tripKeyLE (rows.map deriveRecord)) :=
    List.mem_of_mem_filter hx
  obtain ⟨t, ht, v, rfl⟩ := mem_setIdle _ x hx1
  have ht2 : t ∈ rows.map deriveRecord := (List.mem_insertionSort _).mp ht
  obtain ⟨s, _, rfl⟩ := List.mem_map.mp ht2
  rw [deriveRecord_setIdle_field, deriveRecord_idem]

lemma map_deriveRecord_fixed {l : List Trip}
    (h : ∀ x ∈ l, deriveRecord x = x) : l.map deriveRecord = l := by
  induction l with
  | nil => rfl
  | cons a t ih =>
    rw [List.map_cons, h a (List.mem_cons_self _ _),
      ih (fun x hx => h x (List.mem_cons_of_mem _ hx))]

lemma process_pipeline_sorted (rows : List Trip) :
    List.Sorted tripKeyLE (process_pipeline rows) := by
  unfold process_pipeline
  exact List.Sorted.filter critical
    (pairwise_setIdle _ (List.sorted_insertionSort tripKeyLE _))

lemma map_proj_zipWith {α : Type} (f : Trip → α)
    (hf : ∀ t v, f { t with idle_time_sec := v } = f t)
    (rs : List Trip) (ys : List (Option ℤ)) (hlen : rs.length ≤ ys.length) :
    (List.zipWith (fun t i => { t with idle_time_sec := i }) rs ys).map f =
      rs.map f := by
  induction rs generalizing ys with
  | nil => simp
  | cons r rest ih =>
    cases ys with
    | nil => simp at hlen
    | cons y ys2 =>
      rw [List.zipWith_cons_cons, List.map_cons, List.map_cons, hf]
      rw [ih ys2 (by simp at hlen; omega)]

lemma map_proj_setIdle {α : Type} (f : Trip → α)
    (hf : ∀ t v, f { t with idle_time_sec := v } = f t) (rs : List Trip) :
    (setIdle rs).map f = rs.map f := by
  unfold setIdle
  refine map_proj_zipWith f hf rs _ ?_
  rw [show calculate_idle_time_sec rs = idleAux (fun _ => none) rs from rfl,
    idleAux_length]

/-- The five derived columns other than idle time, as one projection. -/
def derivedFields (t : Trip) :
    Option ℤ × Option ℝ × Option ℝ × Option ℝ × Option ℝ :=
  (t.trip_duration_sec, t.trip_distance_km, t.trip_speed_kmh,
    t.trip_efficiency, t.fare_per_km)

/-! ## C3: pipeline re-run -/

/-- C3 (amended): re-running the pipeline on its own cleaned output keeps
the surviving records and leaves duration, distance, speed, efficiency and
fare-per-km unchanged on each of them; the idle-time column is the one
derived value that can change, because it is recomputed on the already
filtered sequence. -/
theorem process_pipeline_quasi_idempotent (rows : List Trip) :
    (process_pipeline (process_pipeline rows)).map derivedFields =
      (process_pipeline rows).map derivedFields := by
  have hpp : ∀ l, process_pipeline l =
      (setIdle (List.insertionSort tripKeyLE (l.map deriveRecord))).filter
        critical := fun l => rfl
  have hfix : (process_pipeline rows).map deriveRecord = process_pipeline rows :=
    map_deriveRecord_fixed (out1_fixed rows)
  have hsorted : List.Sorted tripKeyLE (process_pipeline rows) :=
    process_pipeline_sorted rows
  have hkeep : ∀ x ∈ setIdle (process_pipeline rows), critical x = true := by
    intro x hx
    obtain ⟨t, ht, v, rfl⟩ := mem_setIdle _ x hx
    unfold process_pipeline at ht
    have hc : critical t = true := List.of_mem_filter ht
    exact hc
  rw [hpp (process_pipeline rows), hfix, List.Sorted.insertionSort_eq hsorted,
    List.filter_eq_self.mpr hkeep]
  exact map_proj_setIdle derivedFields (fun t v => rfl) (process_pipeline rows)

/-- C3 counterexample, record A: vendor 1, pickup 0, dropoff 100. -/
def tripP1 : Trip :=
  { vendor_id := 1, pickup_datetime := some 0, dropoff_datetime := some 100,
    pickup_latitude := some 0, pickup_longitude := some 0,
    dropoff_latitude := some 0, dropoff_longitude := some 0,
    passenger_count := some 1, fare_amount := none }

/-- C3 counterexample, record B: dropoff before pickup, so its duration is
missing and the cleaning step drops it. -/
def tripP2 : Trip :=
  { tripP1 with pickup_datetime := some 200, dropoff_datetime := some 150 }

/-- C3 counterexample, record C: pickup 300, dropoff 400. -/
def tripP3 : Trip :=
  { tripP1 with pickup_datetime := some 300, dropoff_datetime := some 400 }

/-- Counterexample to C3 as stated: on the batch [A, B, C] the first run
drops B and gives C the idle time 300 − 150 = 150 (measured from B's
dropoff); re-running the pipeline on the cleaned output recomputes C's idle
time from A's dropoff as 300 − 100 = 200, so `idle_seconds` is NOT left
unchanged. -/
theorem process_pipeline_not_idempotent :
    (process_pipeline [tripP1, tripP2, tripP3]).map (fun t => t.idle_time_sec) =
        [none, some 150] ∧
      (process_pipeline (process_pipeline [tripP1, tripP2, tripP3])).map
          (fun t => t.idle_time_sec) = [none, some 200] :=
  ⟨rfl, rfl⟩
